import Mathlib

/-!
Verification development for the movinin repository: a shallow embedding of
the location REST controller (backend/src/controllers/locationController)
and of the paginated list / select frontend components
(AgencySelectList, LocationSelectList, AgencyList, BookingList),
with theorems settling the specification claims about them.

Strings are modelled as `List Char`; since every user keyword is passed
through `escapeStringRegexp` before being used in a regular expression,
the regexes `^kw$` and `kw` (both with option `'i'`) denote, respectively,
case-insensitive whole-string equality and case-insensitive substring
containment of the literal keyword.
-/

namespace Movinin

/-- Lower-case a character list, modelling the effect of the `'i'` regex
option. -/
def lc (s : List Char) : List Char := s.map Char.toLower

/-- `leadsWith pat s` holds when `s` starts with `pat` (character-exact). -/
def leadsWith : List Char → List Char → Bool
  | [], _ => true
  | _ :: _, [] => false
  | a :: as, b :: bs => a == b && leadsWith as bs

/-- `containsSub pat s` holds when `pat` occurs contiguously inside `s`. -/
def containsSub (pat : List Char) : List Char → Bool
  | [] => leadsWith pat []
  | c :: rest => leadsWith pat (c :: rest) || containsSub pat rest

/-- Semantics of `{ $regexMatch: { input: value, regex: keyword, options: 'i' } }`
with `keyword` a regex-escaped literal: case-insensitive substring test.
Used by `getLocations`. -/
def regexMatch (value kw : List Char) : Bool :=
  containsSub (lc kw) (lc value)

/-- Semantics of `{ $regex: new RegExp(`^kw$`), $options: 'i' }` with `kw`
a regex-escaped literal: case-insensitive whole-string equality.
Used by `validate`. -/
def regexFullMatch (value kw : List Char) : Bool :=
  lc value == lc kw

/-! ## Data model: Location and LocationValue documents -/

/-- A `LocationValue` document: `{_id, language, value}`. -/
structure LocationValue where
  lvId : Nat
  language : List Char
  value : List Char
deriving DecidableEq

/-- A `Location` document: `{_id, values}` where `values` is the list of
ids of the owned `LocationValue` documents. -/
structure Location where
  locId : Nat
  values : List Nat
deriving DecidableEq

/-- The relevant portion of the document store. -/
structure DB where
  locations : List Location
  locationValues : List LocationValue
deriving DecidableEq

/-! ## Backend: location controller -/

/-- `validate` (POST /validate-location): returns 204 when some stored
`LocationValue` has the requested language and its value matches the
anchored case-insensitive regex `^name$`, else 200. -/
def validate (db : DB) (language name : List Char) : Nat :=
  match db.locationValues.find?
      (fun v => v.language == language && regexFullMatch v.value name) with
  | some _ => 204
  | none => 200

/-- The `$lookup` sub-pipeline of `getLocations`: values of the store whose
id is in the location's `values` list, whose language equals the requested
language, and whose value matches the keyword regex (unanchored, `'i'`). -/
def lookupValues (vals : List LocationValue) (loc : Location)
    (language kw : List Char) : List LocationValue :=
  vals.filter
    (fun v => loc.values.contains v.lvId
      && v.language == language
      && regexMatch v.value kw)

/-- The pipeline after `$unwind {path: value, preserveNullAndEmptyArrays: false}`
and `$addFields {name: value.value}`: one row per (location, matched value)
pair; a location whose lookup result is empty yields no row. -/
def unwound (db : DB) (language kw : List Char) :
    List (Location × LocationValue) :=
  db.locations.flatMap
    (fun loc => (lookupValues db.locationValues loc language kw).map
      (fun v => (loc, v)))

/-- Case-insensitive lexicographic comparison on names, standing in for the
`$sort {name: 1}` order under the strength-2 collation. -/
def leName : List Char → List Char → Bool
  | [], _ => true
  | _ :: _, [] => false
  | a :: as, b :: bs =>
    if a.toLower == b.toLower then leName as bs
    else decide (a.toLower ≤ b.toLower)

/-- Insert a row into a name-sorted list of rows. -/
def insertByName (x : Location × LocationValue) :
    List (Location × LocationValue) → List (Location × LocationValue)
  | [] => [x]
  | y :: ys =>
    if leName x.2.value y.2.value then x :: y :: ys else y :: insertByName x ys

/-- `$sort {name: 1}` as an insertion sort on the unwound rows. -/
def sortByName : List (Location × LocationValue) → List (Location × LocationValue)
  | [] => []
  | x :: xs => insertByName x (sortByName xs)

/-- The `{resultData, pageInfo}` envelope produced by the `$facet` stage:
`pageInfo` is a zero- or one-element list because `$count` emits no document
on an empty input. -/
structure LocEnvelope where
  resultData : List (Location × LocationValue)
  pageInfo : List Nat
deriving DecidableEq

/-- `getLocations` (GET /locations/:page/:size/:language?s=keyword):
the full aggregation — lookup, unwind, addFields, then the facet of
`$sort`/`$skip (page-1)*size`/`$limit size` for `resultData` and
`$count totalRecords` for `pageInfo`. -/
def getLocations (db : DB) (language kw : List Char) (page size : Nat) :
    LocEnvelope :=
  let matched := unwound db language kw
  { resultData := ((sortByName matched).drop ((page - 1) * size)).take size
    pageInfo := if matched.isEmpty then [] else [matched.length] }

/-- The total-records number an envelope carries (0 when `$count` emitted
no document). -/
def envTotal (e : LocEnvelope) : Nat :=
  match e.pageInfo with
  | [] => 0
  | t :: _ => t

/-- `populate('values')`: resolve the location's value ids against the
store, keeping the order of the `values` list. -/
def resolveValues (db : DB) (loc : Location) : List LocationValue :=
  loc.values.filterMap (fun vid => db.locationValues.find? (fun v => v.lvId == vid))

/-- `deleteLocation` (DELETE /delete-location/:id): `findByIdAndDelete`
then `LocationValue.deleteMany {_id ∈ location.values}`; 204 when the id
names no location, 200 on success. -/
def deleteLocation (db : DB) (id : Nat) : DB × Nat :=
  match db.locations.find? (fun l => l.locId == id) with
  | none => (db, 204)
  | some loc =>
    ({ locations := db.locations.filter (fun l => !(l.locId == id))
       locationValues := db.locationValues.filter
         (fun v => !(loc.values.contains v.lvId)) }, 200)

/-- Outcome of `getLocation`: the JSON of the location together with the
resolved name, or a bare status code. -/
inductive GetLocRes where
  | json (loc : Location) (name : List Char)
  | status (code : Nat)
deriving DecidableEq

/-- `getLocation` (GET /location/:id/:language): `findById().populate()`;
204 when absent; otherwise the code reads
`values.filter(v => v.language === language)[0].value`, which throws when
the filter result is empty — the catch clause turns that into status 400. -/
def getLocation (db : DB) (id : Nat) (language : List Char) : GetLocRes :=
  match db.locations.find? (fun l => l.locId == id) with
  | none => .status 204
  | some loc =>
    match ((resolveValues db loc).filter (fun v => v.language == language)).head? with
    | none => .status 400
    | some v => .json loc v.value

/-! ## Frontend: response envelope as received by list components -/

/-- The `pageInfo` field of a response as seen by a frontend list component:
either not an array at all, or an array of `totalRecords` numbers. -/
inductive PageInfoField where
  | notArray
  | arr (entries : List Nat)
deriving DecidableEq

/-- A `{resultData, pageInfo}` response, rows of type `β`. -/
structure FetchResponse (β : Type) where
  resultData : List β
  pageInfo : PageInfoField
deriving DecidableEq

/-- The defensive extraction
`Array.isArray(pageInfo) && pageInfo.length > 0 ? pageInfo[0].totalRecords : 0`
shared verbatim by AgencySelectList, LocationSelectList, AgencyList and
BookingList. -/
def totalRecordsOfPageInfo : PageInfoField → Nat
  | .notArray => 0
  | .arr [] => 0
  | .arr (t :: _) => t

/-! ## Frontend: select-list components (AgencySelectList / LocationSelectList) -/

/-- Local state of a select-list component: `rows`, `page`, `keyword`,
`fetch` and `loading` `useState` hooks. -/
structure SelState (α : Type) where
  rows : List α
  page : Nat
  keyword : List Char
  fetch : Bool
  loading : Bool
deriving DecidableEq

/-- A `_fetch(page, keyword)` request issued by a handler. -/
structure FetchReq where
  page : Nat
  keyword : List Char
deriving DecidableEq

/-- Tail of `AgencySelectList._fetch` once the response arrives: page 1
replaces the rows with `getAgencies(resultData)` (here `g` mapped over it),
a later page appends; `fetch` records whether `resultData` was non-empty;
the returned number is the `rowCount` handed to the `onFetch` callback. -/
def agencySelectApplyFetch {α β : Type} (g : β → α) (st : SelState α)
    (reqPage : Nat) (resp : FetchResponse β) : SelState α × Nat :=
  ({ st with
      rows := if reqPage == 1 then resp.resultData.map g
        else st.rows ++ resp.resultData.map g
      fetch := decide (0 < resp.resultData.length)
      loading := false },
    totalRecordsOfPageInfo resp.pageInfo)

/-- `AgencySelectList` ListboxProps.onScroll: when `fetch && !loading` and
the listbox is scrolled near its bottom, advance the page and issue
`_fetch(page+1, keyword)`. -/
def agencySelectOnScroll {α : Type} (st : SelState α) (nearBottom : Bool) :
    SelState α × Option FetchReq :=
  if st.fetch && !st.loading && nearBottom then
    ({ st with page := st.page + 1 }, some ⟨st.page + 1, st.keyword⟩)
  else (st, none)

/-- `AgencySelectList` onInputChange: when the input value differs from the
current keyword, clear the rows, reset the page to 1, store the keyword and
issue `_fetch(1, value)`. -/
def agencySelectOnInputChange {α : Type} (st : SelState α) (newVal : List Char) :
    SelState α × Option FetchReq :=
  if newVal ≠ st.keyword then
    ({ st with rows := [], page := 1, keyword := newVal }, some ⟨1, newVal⟩)
  else (st, none)

/-- `AgencySelectList` onClear: clear rows, page 1, empty keyword, re-arm
the fetch flag and issue `_fetch(1, '')`. -/
def agencySelectOnClear {α : Type} (st : SelState α) : SelState α × FetchReq :=
  ({ st with rows := [], page := 1, keyword := [], fetch := true }, ⟨1, []⟩)

/-- `LocationSelectList._fetch` response handling (identical merge policy;
no row mapping, and the body only runs under `fetch || page == 1`, which is
handled at the call site). -/
def locationSelectApplyFetch {α : Type} (st : SelState α)
    (reqPage : Nat) (resp : FetchResponse α) : SelState α × Nat :=
  ({ st with
      rows := if reqPage == 1 then resp.resultData
        else st.rows ++ resp.resultData
      fetch := decide (0 < resp.resultData.length)
      loading := false },
    totalRecordsOfPageInfo resp.pageInfo)

/-- `LocationSelectList` onInputChange — character-identical to the agency
one. -/
def locationSelectOnInputChange {α : Type} (st : SelState α) (newVal : List Char) :
    SelState α × Option FetchReq :=
  if newVal ≠ st.keyword then
    ({ st with rows := [], page := 1, keyword := newVal }, some ⟨1, newVal⟩)
  else (st, none)

/-! ## Frontend: AgencyList (page-based list with optional infinite scroll) -/

/-- Local state of `AgencyList`. -/
structure ListState (α : Type) where
  rows : List α
  rowCount : Nat
  totalRecords : Nat
  page : Nat
  fetch : Bool
  loading : Bool
deriving DecidableEq

/-- Tail of `AgencyList._fetch`: in infinite-scroll (or mobile) mode page 1
replaces and later pages append, in classic mode the response always
replaces; `rowCount`, `totalRecords` and `fetch` are set as in the source. -/
def agencyListApplyFetch {α : Type} (infiniteScroll : Bool) (pageSize : Nat)
    (st : ListState α) (reqPage : Nat) (resp : FetchResponse α) : ListState α :=
  let newRows := if infiniteScroll then
      (if reqPage == 1 then resp.resultData else st.rows ++ resp.resultData)
    else resp.resultData
  { st with
    rows := newRows
    rowCount := (reqPage - 1) * pageSize + newRows.length
    totalRecords := totalRecordsOfPageInfo resp.pageInfo
    fetch := decide (0 < resp.resultData.length)
    loading := false }

/-- `AgencyList` body onscroll (infinite-scroll mode): when
`fetch && !loading` and the window is scrolled near the bottom, set
`loading` and advance the page (the page-effect then re-fetches); the
returned Bool records whether a further fetch was triggered. -/
def agencyListOnScroll {α : Type} (st : ListState α) (nearBottom : Bool) :
    ListState α × Bool :=
  if st.fetch && !st.loading && nearBottom then
    ({ st with loading := true, page := st.page + 1 }, true)
  else (st, false)

/-! ## Frontend: BookingList -/

/-- The booking status enumeration. -/
inductive BookingStatus where
  | Void | Pending | Deposit | Paid | Reserved | Cancelled
deriving DecidableEq

/-- Row merge of `BookingList._fetch` (pages are 0-based, coming from the
DataGrid pagination model): on mobile, page 0 replaces and later pages
append; on desktop the response always replaces the rows. -/
def bookingListRows {α : Type} (mobile : Bool) (prev : List α)
    (reqPage : Nat) (resp : FetchResponse α) : List α :=
  if mobile then
    (if reqPage == 0 then resp.resultData else prev ++ resp.resultData)
  else resp.resultData

/-- Condition of the desktop action-cell cancel icon in
`BookingList.getColumns`: `cancellation && !cancelRequest &&
status !== Cancelled && new Date(from) >= today` where `today` is the
current instant truncated to midnight. Times are instants on an integer
timeline. -/
def cancelButtonDesktop (cancellation cancelRequest : Bool)
    (status : BookingStatus) (fromTime startOfToday : Int) : Bool :=
  cancellation && !cancelRequest && !(status == BookingStatus.Cancelled)
    && decide (startOfToday ≤ fromTime)

/-- Condition of the mobile cancel button in `BookingList`:
`cancellation && !cancelRequest && status !== Cancelled &&
new Date(booking.from) > new Date()` — strictly after the current
instant. -/
def cancelButtonMobile (cancellation cancelRequest : Bool)
    (status : BookingStatus) (fromTime now : Int) : Bool :=
  cancellation && !cancelRequest && !(status == BookingStatus.Cancelled)
    && decide (now < fromTime)

/-! ## Concrete example documents (used by witnesses and counterexamples) -/

/-- The characters of "Paris". -/
def parisChars : List Char := ['P', 'a', 'r', 'i', 's']

/-- The characters of "par". -/
def parChars : List Char := ['p', 'a', 'r']

/-- The characters of the language code "en". -/
def enChars : List Char := ['e', 'n']

/-- The characters of the language code "fr". -/
def frChars : List Char := ['f', 'r']

/-- Example value document: id 1, language "en", value "Paris". -/
def exVal : LocationValue := ⟨1, enChars, parisChars⟩

/-- Example value document: id 2, language "fr", value "Paris". -/
def exVal2 : LocationValue := ⟨2, frChars, parisChars⟩

/-- Example location owning both example values. -/
def exLoc : Location := ⟨1, [1, 2]⟩

/-- Example store: one location with an "en" and an "fr" name. -/
def exDB : DB := ⟨[exLoc], [exVal, exVal2]⟩

/-- Example location owning only the "en" value. -/
def exLoc1 : Location := ⟨1, [1]⟩

/-- Example store: one location with only an "en" name. -/
def exDB1 : DB := ⟨[exLoc1], [exVal]⟩

/-! ## Characterisation of the matching primitives -/

theorem leadsWith_iff (pat s : List Char) :
    leadsWith pat s = true ↔ ∃ r, s = pat ++ r := by
  induction pat generalizing s with
  | nil => simp [leadsWith]
  | cons a as ih =>
    cases s with
    | nil => simp [leadsWith]
    | cons b bs =>
      simp only [leadsWith, Bool.and_eq_true, beq_iff_eq, ih, List.cons_append,
        List.cons.injEq]
      constructor
      · rintro ⟨rfl, r, rfl⟩
        exact ⟨r, rfl, rfl⟩
      · rintro ⟨r, rfl, rfl⟩
        exact ⟨rfl, r, rfl⟩

theorem containsSub_iff (pat s : List Char) :
    containsSub pat s = true ↔ ∃ l r, s = l ++ pat ++ r := by
  induction s with
  | nil =>
    simp only [containsSub, leadsWith_iff]
    constructor
    · rintro ⟨r, h⟩
      exact ⟨[], r, by simpa using h⟩
    · rintro ⟨l, r, h⟩
      obtain ⟨hl, hp, hr⟩ :
          l = [] ∧ pat = [] ∧ r = [] := by
        simpa [List.append_assoc] using h.symm
      exact ⟨r, by simp [hp, hr]⟩
  | cons c rest ih =>
    simp only [containsSub, Bool.or_eq_true, leadsWith_iff, ih]
    constructor
    · rintro (⟨r, h⟩ | ⟨l, r, h⟩)
      · exact ⟨[], r, by simpa using h⟩
      · exact ⟨c :: l, r, by simp [h]⟩
    · rintro ⟨l, r, h⟩
      cases l with
      | nil => exact Or.inl ⟨r, by simpa using h⟩
      | cons x xs =>
        right
        refine ⟨xs, r, ?_⟩
        have := h
        simp only [List.cons_append, List.cons.injEq] at this
        exact this.2

/-! ## Claim C2: keyword matching semantics -/

/-- C2 counterexample: the claim states that in every keyword search —
the `getLocations` list search included — a stored name value matches only
when the whole value matches the keyword. On the store holding the single
name "Paris", the `getLocations` search for the keyword "par" returns that
location (its `$regexMatch` filter is unanchored and accepts the
case-insensitive substring), although "par" is not a full-string match of
"Paris". -/
theorem C2_counterexample :
    regexMatch parisChars parChars = true
    ∧ regexFullMatch parisChars parChars = false
    ∧ (getLocations exDB enChars parChars 1 10).resultData = [(exLoc, exVal)] := by
  decide

/-- C2 amended: the `validate` name check matches exactly the stored values
that are case-insensitively equal to the whole keyword (anchored `^kw$`
regex), while the `getLocations` keyword filter matches exactly the stored
values containing the keyword as a case-insensitive substring (unanchored
regex). -/
theorem C2_match_semantics (db : DB) (language name kw : List Char) :
    (validate db language name = 204 ↔
      ∃ v ∈ db.locationValues, v.language = language ∧ lc v.value = lc name)
    ∧ (∀ (loc : Location) (v : LocationValue),
        v ∈ lookupValues db.locationValues loc language kw ↔
          (v ∈ db.locationValues ∧ v.lvId ∈ loc.values ∧ v.language = language
            ∧ ∃ l r, lc v.value = l ++ lc kw ++ r)) := by
  constructor
  · have hiff : validate db language name = 204 ↔
        (db.locationValues.find?
          (fun v => v.language == language && regexFullMatch v.value name)).isSome := by
      unfold validate
      cases db.locationValues.find?
          (fun v => v.language == language && regexFullMatch v.value name) with
      | none => simp
      | some v => simp
    rw [hiff, List.find?_isSome]
    simp only [Bool.and_eq_true, beq_iff_eq, regexFullMatch]
  · intro loc v
    simp only [lookupValues, List.mem_filter, Bool.and_eq_true, beq_iff_eq,
      regexMatch, containsSub_iff, List.elem_iff, and_assoc]

/-! ## Claim C1: the facet invariant -/

theorem insertByName_length (x : Location × LocationValue)
    (l : List (Location × LocationValue)) :
    (insertByName x l).length = l.length + 1 := by
  induction l with
  | nil => rfl
  | cons y ys ih =>
    unfold insertByName
    by_cases h : leName x.2.value y.2.value = true
    · simp [h]
    · simp [h, ih]

theorem sortByName_length (l : List (Location × LocationValue)) :
    (sortByName l).length = l.length := by
  induction l with
  | nil => rfl
  | cons x xs ih => simp [sortByName, insertByName_length, ih]

/-- The number of unwound rows equals the number of locations having at
least one matched value, provided each location has at most one matched
value (e.g. one name per language). -/
theorem unwound_count (vals : List LocationValue) (language kw : List Char) :
    ∀ ls : List Location,
      (∀ loc ∈ ls, (lookupValues vals loc language kw).length ≤ 1) →
      (ls.flatMap (fun loc =>
          (lookupValues vals loc language kw).map (fun v => (loc, v)))).length
        = (ls.filter
            (fun loc => !(lookupValues vals loc language kw).isEmpty)).length := by
  intro ls
  induction ls with
  | nil => intro _; rfl
  | cons a as ih =>
    intro h
    have ha := h a (List.mem_cons_self a as)
    have has : ∀ loc ∈ as, (lookupValues vals loc language kw).length ≤ 1 :=
      fun loc hl => h loc (List.mem_cons_of_mem a hl)
    cases hv : lookupValues vals a language kw with
    | nil =>
      simp [List.flatMap_cons, hv, List.filter_cons, ih has]
    | cons v vs =>
      have : vs = [] := by
        have := ha
        rw [hv] at this
        simpa using List.length_eq_zero.mp (Nat.le_zero.mp (Nat.succ_le_succ_iff.mp this))
      subst this
      simp [List.flatMap_cons, hv, List.filter_cons, ih has]

/-- C1: for a 1-based page and a positive page size, and a store in which
each location carries at most one matched value for the requested language
and keyword, the envelope's `totalRecords` equals the number of locations
matching the keyword and language — independent of the requested page and
size — and `resultData` holds at most `size` rows. -/
theorem C1_facet_invariant (db : DB) (language kw : List Char) (page size : Nat)
    (_hp : 1 ≤ page) (_hs : 1 ≤ size)
    (huniq : ∀ loc ∈ db.locations,
      (lookupValues db.locationValues loc language kw).length ≤ 1) :
    envTotal (getLocations db language kw page size)
      = (db.locations.filter
          (fun loc => !(lookupValues db.locationValues loc language kw).isEmpty)).length
    ∧ (getLocations db language kw page size).resultData.length ≤ size := by
  constructor
  · have htot : envTotal (getLocations db language kw page size)
        = (unwound db language kw).length := by
      unfold getLocations envTotal
      cases he : (unwound db language kw).isEmpty with
      | true =>
        simp only [he, if_true]
        simp [List.isEmpty_iff.mp he]
      | false => simp [he]
    rw [htot]
    exact unwound_count db.locationValues language kw db.locations huniq
  · unfold getLocations
    simp

/-- C1 witness: the invariant evaluated on the example store with the
keyword "par", language "en", page 1, size 10. -/
theorem C1_facet_invariant_witness :
    envTotal (getLocations exDB enChars parChars 1 10)
      = (exDB.locations.filter
          (fun loc => !(lookupValues exDB.locationValues loc enChars parChars).isEmpty)).length
    ∧ (getLocations exDB enChars parChars 1 10).resultData.length ≤ 10 :=
  C1_facet_invariant exDB enChars parChars 1 10 (by decide) (by decide) (by decide)

/-! ## Claim C6: inner-join / unwind exclusion -/

/-- `getLocations` depends on the store only through the unwound rows. -/
theorem getLocations_congr (db1 db2 : DB) (language kw : List Char)
    (page size : Nat)
    (h : unwound db1 language kw = unwound db2 language kw) :
    getLocations db1 language kw page size
      = getLocations db2 language kw page size := by
  unfold getLocations
  rw [h]

/-- C6: a location with no value in the requested language matching the
keyword contributes no row to the unwound stream, and adding it to a store
changes neither `resultData` nor `pageInfo` of `getLocations` (so it is
not counted in `totalRecords`): `$unwind` with
`preserveNullAndEmptyArrays: false` drops it. -/
theorem C6_unwind_excludes (db : DB) (language kw : List Char)
    (page size : Nat) (loc : Location)
    (h : lookupValues db.locationValues loc language kw = []) :
    (∀ v : LocationValue,
      (loc, v) ∉ unwound ⟨loc :: db.locations, db.locationValues⟩ language kw)
    ∧ getLocations ⟨loc :: db.locations, db.locationValues⟩ language kw page size
        = getLocations db language kw page size := by
  have hunw : unwound ⟨loc :: db.locations, db.locationValues⟩ language kw
      = unwound db language kw := by
    unfold unwound
    simp [List.flatMap_cons, h]
  constructor
  · intro v hv
    rw [hunw] at hv
    unfold unwound at hv
    obtain ⟨loc', hloc', hmem⟩ := List.mem_flatMap.mp hv
    obtain ⟨v', hv', heq⟩ := List.mem_map.mp hmem
    have hl : loc' = loc := congrArg Prod.fst heq
    rw [hl, h] at hv'
    exact absurd hv' (List.not_mem_nil v')
  · exact getLocations_congr _ _ language kw page size hunw

/-- C6 witness: adding a location with no values at all to the example
store leaves the "en"/"par" search untouched. -/
theorem C6_unwind_excludes_witness :
    getLocations ⟨Location.mk 2 [] :: exDB.locations, exDB.locationValues⟩
        enChars parChars 1 10
      = getLocations exDB enChars parChars 1 10 :=
  (C6_unwind_excludes exDB enChars parChars 1 10 ⟨2, []⟩ (by decide)).2

/-! ## Claim C5: cascade delete of location values -/

/-- C5: deleting a non-existent id leaves the store unchanged and returns
204; deleting an existing location returns 200, leaves no value document
whose id was referenced in the location's `values` list, and makes a
subsequent `getLocation` on that id answer 204. -/
theorem C5_delete_cascade (db : DB) (id : Nat) (language : List Char) :
    (db.locations.find? (fun l => l.locId == id) = none →
      deleteLocation db id = (db, 204))
    ∧ (∀ loc : Location, db.locations.find? (fun l => l.locId == id) = some loc →
        (deleteLocation db id).2 = 200
        ∧ (∀ v ∈ (deleteLocation db id).1.locationValues, v.lvId ∉ loc.values)
        ∧ getLocation (deleteLocation db id).1 id language = .status 204) := by
  constructor
  · intro hnone
    unfold deleteLocation
    rw [hnone]
  · intro loc hsome
    have hdel : deleteLocation db id
        = ({ locations := db.locations.filter (fun l => !(l.locId == id))
             locationValues := db.locationValues.filter
               (fun v => !(loc.values.contains v.lvId)) }, 200) := by
      unfold deleteLocation
      rw [hsome]
    refine ⟨by rw [hdel], ?_, ?_⟩
    · intro v hv
      rw [hdel] at hv
      have := (List.mem_filter.mp hv).2
      simpa using this
    · rw [hdel]
      unfold getLocation
      have hfind : (db.locations.filter (fun l => !(l.locId == id))).find?
          (fun l => l.locId == id) = none := by
        rw [List.find?_eq_none]
        intro x hx
        have := (List.mem_filter.mp hx).2
        simpa using this
      rw [hfind]

/-- C5 witness: deleting the example location (two owned values) returns
200, and the subsequent fetch of its id answers 204. -/
theorem C5_delete_cascade_witness :
    (deleteLocation exDB 1).2 = 200
    ∧ getLocation (deleteLocation exDB 1).1 1 enChars = GetLocRes.status 204 :=
  ⟨((C5_delete_cascade exDB 1 enChars).2 exLoc (by decide)).1,
   ((C5_delete_cascade exDB 1 enChars).2 exLoc (by decide)).2.2⟩

/-! ## Claim C10: getLocation with a missing-language value -/

/-- C10: when the id names an existing location, `getLocation` never
answers 204; if the location has no populated value in the requested
language it answers 400 (the thrown read of `[0].value` lands in the
database-error catch); and it returns a JSON body exactly when a value in
the requested language exists, with that value's text as the name. -/
theorem C10_missing_language (db : DB) (id : Nat) (language : List Char)
    (loc : Location)
    (hfind : db.locations.find? (fun l => l.locId == id) = some loc) :
    ((∀ v ∈ resolveValues db loc, ¬ v.language = language) →
      getLocation db id language = .status 400)
    ∧ getLocation db id language ≠ .status 204
    ∧ (∀ (l : Location) (n : List Char),
        getLocation db id language = .json l n →
          ∃ v ∈ resolveValues db loc, v.language = language ∧ v.value = n) := by
  have hget : getLocation db id language
      = match ((resolveValues db loc).filter
          (fun v => v.language == language)).head? with
        | none => .status 400
        | some v => .json loc v.value := by
    unfold getLocation
    rw [hfind]
  refine ⟨?_, ?_, ?_⟩
  · intro hnone
    have hfil : (resolveValues db loc).filter (fun v => v.language == language)
        = [] := by
      rw [List.filter_eq_nil_iff]
      intro v hv
      simpa using hnone v hv
    rw [hget, hfil]
    rfl
  · rw [hget]
    cases ((resolveValues db loc).filter (fun v => v.language == language)).head? with
    | none => simp
    | some v => simp
  · intro l n hjson
    rw [hget] at hjson
    cases hfil : (resolveValues db loc).filter (fun v => v.language == language) with
    | nil => rw [hfil] at hjson; simp at hjson
    | cons v vs =>
      rw [hfil] at hjson
      simp only [List.head?_cons] at hjson
      have hv : v ∈ (resolveValues db loc).filter (fun v => v.language == language) := by
        rw [hfil]; exact List.mem_cons_self v vs
      obtain ⟨hvmem, hvlang⟩ := List.mem_filter.mp hv
      refine ⟨v, hvmem, by simpa using hvlang, ?_⟩
      cases hjson
      rfl

/-- C10 witness: the example location has only an "en" name; fetching it
with language "fr" answers 400. -/
theorem C10_missing_language_witness :
    getLocation exDB1 1 frChars = GetLocRes.status 400 :=
  (C10_missing_language exDB1 1 frChars exLoc1 (by decide)).1 (by decide)

/-! ## Claim C3: reachability of the cancellation-request flow -/

/-- C3 counterexample: the claim's gate — cancellation enabled, no
cancel request, status not Cancelled, `from` today or later — is met by a
booking starting today at instant 5 (start of today 0 ≤ 5, current instant
10), and the desktop action cell does show the cancel button; the mobile
cancel button, however, is not rendered, because the mobile gate compares
`from` with the current instant, not with the start of today. -/
theorem C3_counterexample :
    ((0 : Int) ≤ 5 ∧ (0 : Int) ≤ 10)
    ∧ cancelButtonDesktop true false BookingStatus.Pending 5 0 = true
    ∧ cancelButtonMobile true false BookingStatus.Pending 5 10 = false := by
  decide

/-- C3 amended: the desktop action cell shows the cancel flow exactly when
cancellation is enabled, no cancel request exists, the status is not
Cancelled and `from` is at or after the start of today; the mobile button
requires instead `from` strictly after the current instant; under either
gate, a booking whose `from` lies before the start of today (i.e. on an
earlier date) never enters the flow. -/
theorem C3_cancel_gate (c cr : Bool) (st : BookingStatus)
    (f sot now : Int) (hsot : sot ≤ now) :
    (cancelButtonDesktop c cr st f sot = true ↔
      (c = true ∧ cr = false ∧ st ≠ BookingStatus.Cancelled ∧ sot ≤ f))
    ∧ (cancelButtonMobile c cr st f now = true ↔
      (c = true ∧ cr = false ∧ st ≠ BookingStatus.Cancelled ∧ now < f))
    ∧ (f < sot →
        cancelButtonDesktop c cr st f sot = false
        ∧ cancelButtonMobile c cr st f now = false) := by
  refine ⟨?_, ?_, ?_⟩
  · simp [cancelButtonDesktop, and_assoc]
  · simp [cancelButtonMobile, and_assoc]
  · intro hf
    constructor
    · simp only [cancelButtonDesktop]
      have : ¬ sot ≤ f := not_le.mpr hf
      simp [this]
    · simp only [cancelButtonMobile]
      have : ¬ now < f := not_lt.mpr (le_of_lt (lt_of_lt_of_le hf hsot))
      simp [this]

/-- C3 witness: a booking from yesterday (instant -1, start of today 0,
now 10) is unreachable through either rendering of the flow. -/
theorem C3_cancel_gate_witness :
    cancelButtonDesktop true false BookingStatus.Pending (-1) 0 = false
    ∧ cancelButtonMobile true false BookingStatus.Pending (-1) 10 = false :=
  (C3_cancel_gate true false BookingStatus.Pending (-1) 0 10 (by decide)).2.2
    (by decide)

/-! ## Claim C4: replace-on-first-page / append-on-later-pages policy -/

/-- C4 counterexample: the claim asserts that in every list component a
fetch of a 1-based page beyond the first appends to the buffer. In
`BookingList` on desktop, fetching the second page (the component's pages
are 0-based, so request page 1) with buffer `[1]` and response `[2]`
replaces the buffer with `[2]` instead of appending. -/
theorem C4_counterexample :
    bookingListRows false [1] 1 ⟨[2], PageInfoField.arr [5]⟩ = [2]
    ∧ [2] ≠ [1] ++ ([2] : List Nat) := by
  decide

/-- C4 amended: in the select lists (1-based pages) page 1 replaces and
later pages append; in `AgencyList` this policy applies in
infinite-scroll/mobile mode while classic mode always replaces; in
`BookingList` (0-based pages) the mobile rendering replaces on page 0 and
appends on later pages, while the desktop rendering always replaces. -/
theorem C4_merge_policy {α β : Type} (g : β → α) (st : SelState α)
    (lst : ListState α) (prev : List α) (ps p : Nat)
    (resp : FetchResponse β) (respA : FetchResponse α) :
    ((agencySelectApplyFetch g st 1 resp).1.rows = resp.resultData.map g)
    ∧ (1 < p → (agencySelectApplyFetch g st p resp).1.rows
        = st.rows ++ resp.resultData.map g)
    ∧ ((locationSelectApplyFetch st 1 respA).1.rows = respA.resultData)
    ∧ (1 < p → (locationSelectApplyFetch st p respA).1.rows
        = st.rows ++ respA.resultData)
    ∧ ((agencyListApplyFetch true ps lst 1 respA).rows = respA.resultData)
    ∧ (1 < p → (agencyListApplyFetch true ps lst p respA).rows
        = lst.rows ++ respA.resultData)
    ∧ ((agencyListApplyFetch false ps lst p respA).rows = respA.resultData)
    ∧ (bookingListRows true prev 0 respA = respA.resultData)
    ∧ (0 < p → bookingListRows true prev p respA = prev ++ respA.resultData)
    ∧ (bookingListRows false prev p respA = respA.resultData) := by
  refine ⟨by simp [agencySelectApplyFetch], fun hp => ?_,
    by simp [locationSelectApplyFetch], fun hp => ?_,
    by simp [agencyListApplyFetch], fun hp => ?_,
    by simp [agencyListApplyFetch],
    by simp [bookingListRows], fun hp => ?_,
    by simp [bookingListRows]⟩
  · have hne : (p == 1) = false := beq_eq_false_iff_ne.mpr (by omega)
    simp [agencySelectApplyFetch, hne]
  · have hne : (p == 1) = false := beq_eq_false_iff_ne.mpr (by omega)
    simp [locationSelectApplyFetch, hne]
  · have hne : (p == 1) = false := beq_eq_false_iff_ne.mpr (by omega)
    simp [agencyListApplyFetch, hne]
  · have hne : (p == 0) = false := beq_eq_false_iff_ne.mpr (by omega)
    simp [bookingListRows, hne]

/-- C4 witness: a second-page fetch appends in `AgencySelectList`
(1-based page 2) and in mobile `BookingList` (0-based page 2). -/
theorem C4_merge_policy_witness :
    (agencySelectApplyFetch (fun n : Nat => n) ⟨[7], 1, [], true, false⟩ 2
        ⟨[8], PageInfoField.arr [1]⟩).1.rows = [7] ++ [8]
    ∧ bookingListRows true [7] 2 ⟨[8], PageInfoField.arr [1]⟩ = [7] ++ [8] :=
  ⟨(C4_merge_policy (fun n : Nat => n) ⟨[7], 1, [], true, false⟩
      ⟨[7], 0, 0, 1, true, false⟩ [7] 10 2
      ⟨[8], PageInfoField.arr [1]⟩ ⟨[8], PageInfoField.arr [1]⟩).2.1 (by decide),
   (C4_merge_policy (fun n : Nat => n) ⟨[7], 1, [], true, false⟩
      ⟨[7], 0, 0, 1, true, false⟩ [7] 10 2
      ⟨[8], PageInfoField.arr [1]⟩ ⟨[8], PageInfoField.arr [1]⟩).2.2.2.2.2.2.2.2.1
     (by decide)⟩

/-! ## Claim C7: keyword change resets page and buffer -/

/-- C7: in both select-list components, an input value different from the
current keyword clears the row buffer, resets the page to 1, stores the
new keyword, and issues the re-fetch for page 1 with the new keyword. -/
theorem C7_keyword_reset {α : Type} (st : SelState α) (newVal : List Char)
    (h : newVal ≠ st.keyword) :
    ((agencySelectOnInputChange st newVal).1.rows = []
      ∧ (agencySelectOnInputChange st newVal).1.page = 1
      ∧ (agencySelectOnInputChange st newVal).1.keyword = newVal
      ∧ (agencySelectOnInputChange st newVal).2 = some ⟨1, newVal⟩)
    ∧ ((locationSelectOnInputChange st newVal).1.rows = []
      ∧ (locationSelectOnInputChange st newVal).1.page = 1
      ∧ (locationSelectOnInputChange st newVal).1.keyword = newVal
      ∧ (locationSelectOnInputChange st newVal).2 = some ⟨1, newVal⟩) := by
  simp [agencySelectOnInputChange, locationSelectOnInputChange, h]

/-- C7 witness: clearing a "par" keyword on a non-trivial state resets
both components to page 1 with an empty buffer. -/
theorem C7_keyword_reset_witness :
    (agencySelectOnInputChange (⟨[7], 3, parChars, true, false⟩ : SelState Nat)
        []).1.page = 1
    ∧ (locationSelectOnInputChange (⟨[7], 3, parChars, true, false⟩ : SelState Nat)
        []).1.rows = [] :=
  ⟨(C7_keyword_reset (⟨[7], 3, parChars, true, false⟩ : SelState Nat) []
      (by decide)).1.2.1,
   (C7_keyword_reset (⟨[7], 3, parChars, true, false⟩ : SelState Nat) []
      (by decide)).2.1⟩

/-! ## Claim C8: the fetch flag gates infinite scroll -/

/-- C8: after a completed fetch the `fetch` flag is set exactly when the
response's `resultData` was non-empty; both scroll handlers issue a
further fetch only when the flag is set; consequently a fetch returning
zero rows shuts further scroll fetches down, until `onClear` re-arms the
flag. -/
theorem C8_fetch_gate {α β : Type} (g : β → α) (st : SelState α)
    (lst : ListState α) (inf nb : Bool) (ps p : Nat)
    (resp : FetchResponse β) (respA : FetchResponse α) (pi : PageInfoField) :
    ((agencySelectApplyFetch g st p resp).1.fetch = true ↔ resp.resultData ≠ [])
    ∧ ((agencySelectOnScroll st nb).2.isSome = true → st.fetch = true)
    ∧ ((agencySelectOnScroll (agencySelectApplyFetch g st p ⟨[], pi⟩).1 nb).2 = none)
    ∧ ((agencySelectOnClear st).1.fetch = true)
    ∧ ((agencyListApplyFetch inf ps lst p respA).fetch = true ↔
        respA.resultData ≠ [])
    ∧ ((agencyListOnScroll lst nb).2 = true → lst.fetch = true)
    ∧ ((agencyListOnScroll (agencyListApplyFetch inf ps lst p ⟨[], pi⟩) nb).2
        = false) := by
  refine ⟨?_, ?_, ?_, ?_, ?_, ?_, ?_⟩
  · simp [agencySelectApplyFetch, List.length_pos]
  · cases hc : (st.fetch && !st.loading && nb) with
    | true =>
      intro _
      exact (Bool.and_eq_true _ _ |>.mp ((Bool.and_eq_true _ _ |>.mp hc).1)).1
    | false => simp [agencySelectOnScroll, hc]
  · simp [agencySelectApplyFetch, agencySelectOnScroll]
  · simp [agencySelectOnClear]
  · simp [agencyListApplyFetch, List.length_pos]
  · cases hc : (lst.fetch && !lst.loading && nb) with
    | true =>
      intro _
      exact (Bool.and_eq_true _ _ |>.mp ((Bool.and_eq_true _ _ |>.mp hc).1)).1
    | false => simp [agencyListOnScroll, hc]
  · simp [agencyListApplyFetch, agencyListOnScroll]

/-- C8 witness: on a state whose last fetch returned no rows, a
near-bottom scroll of the agency select list issues no further request. -/
theorem C8_fetch_gate_witness :
    (agencySelectOnScroll
        (agencySelectApplyFetch (fun n : Nat => n)
          ⟨[7], 2, [], true, false⟩ 3 ⟨[], PageInfoField.arr []⟩).1 true).2
      = none :=
  (C8_fetch_gate (fun n : Nat => n) ⟨[7], 2, [], true, false⟩
    ⟨[7], 0, 0, 1, true, false⟩ true true 10 3
    ⟨[], PageInfoField.arr []⟩ ⟨[], PageInfoField.arr []⟩
    (PageInfoField.arr [])).2.2.1

/-! ## Claim C9: defensive handling of pageInfo -/

/-- C9: when `pageInfo` is not an array or is an empty array, the
components compute a total-record count of 0, and the row processing is
unaffected by the shape of `pageInfo`. -/
theorem C9_defensive_pageinfo {α β : Type} (g : β → α) (st : SelState α)
    (lst : ListState α) (inf : Bool) (ps p : Nat)
    (rd : List α) (rdB : List β) (pi : PageInfoField)
    (h : pi = PageInfoField.notArray ∨ pi = PageInfoField.arr []) :
    totalRecordsOfPageInfo pi = 0
    ∧ (agencySelectApplyFetch g st p ⟨rdB, pi⟩).2 = 0
    ∧ (agencySelectApplyFetch g st p ⟨rdB, pi⟩).1.rows
        = (agencySelectApplyFetch g st p ⟨rdB, PageInfoField.arr [1]⟩).1.rows
    ∧ (agencyListApplyFetch inf ps lst p ⟨rd, pi⟩).totalRecords = 0
    ∧ (agencyListApplyFetch inf ps lst p ⟨rd, pi⟩).rows
        = (agencyListApplyFetch inf ps lst p ⟨rd, PageInfoField.arr [1]⟩).rows := by
  rcases h with h | h <;> subst h <;>
    simp [totalRecordsOfPageInfo, agencySelectApplyFetch, agencyListApplyFetch]

/-- C9 witness: an empty `pageInfo` array yields a zero count while the
response rows are still merged. -/
theorem C9_defensive_pageinfo_witness :
    totalRecordsOfPageInfo (PageInfoField.arr []) = 0
    ∧ (agencySelectApplyFetch (fun n : Nat => n) ⟨[], 1, [], true, false⟩ 1
        ⟨[7], PageInfoField.arr []⟩).2 = 0 :=
  ⟨(C9_defensive_pageinfo (fun n : Nat => n)
      (⟨[], 1, [], true, false⟩ : SelState Nat) ⟨[], 0, 0, 1, true, false⟩
      true 10 1 [] [7] (PageInfoField.arr []) (Or.inr rfl)).1,
   (C9_defensive_pageinfo (fun n : Nat => n)
      (⟨[], 1, [], true, false⟩ : SelState Nat) ⟨[], 0, 0, 1, true, false⟩
      true 10 1 [] [7] (PageInfoField.arr []) (Or.inr rfl)).2.1⟩

end Movinin
